import Mathlib

/-!
# Verification of the in-memory CDN service (`api/index.js`)

This file is a shallow embedding of the two source variants of the
file-upload/download HTTP service:

* `src/api/index.js` — the primary variant (20 MB limit, delete endpoint,
  multer error middleware);
* `src/unnamed/part_000` — a second variant of the same handler file
  (25 MB limit, upload response returns the full record).

Bytes are modelled as `Nat` (each value is below 256 where it matters),
payloads as `List Nat`, and the JavaScript `Map` holding the records as an
association list in insertion order, which is exactly the iteration order
guaranteed by JS `Map` (`set` of a fresh key appends, `set` of an existing
key updates in place, `delete` removes the entry, `values()` iterates in
insertion order).

JSON response bodies are modelled by the inductive `JVal`, with objects as
ordered key/value lists, so that "the response does not contain a `buffer`
field" is a statement about the actual JSON shape the handlers build.
-/

set_option autoImplicit false

namespace CDN

/-- JSON-like values as produced by `res.json(...)`:
strings, numbers, booleans, serialized byte buffers, objects and arrays. -/
inductive JVal where
  | jstr : String → JVal
  | jnum : Nat → JVal
  | jbool : Bool → JVal
  | jbytes : List Nat → JVal
  | jobj : List (String × JVal) → JVal
  | jarr : List JVal → JVal
deriving Repr

mutual

/-- Does a JSON value contain, anywhere inside it, an object with key `k`? -/
def jHasKey : JVal → String → Bool
  | .jobj o, k => jObjHasKey o k
  | .jarr a, k => jArrHasKey a k
  | _, _ => false

/-- Does an object (ordered field list) contain key `k`, at top level or
inside one of its values? -/
def jObjHasKey : List (String × JVal) → String → Bool
  | [], _ => false
  | (k', v) :: rest, k => (k' == k) || jHasKey v k || jObjHasKey rest k

/-- Does some element of a JSON array contain key `k`? -/
def jArrHasKey : List JVal → String → Bool
  | [], _ => false
  | v :: rest, k => jHasKey v k || jArrHasKey rest k

end

/-- Look up a field of a JSON object (first match, as in JS objects where
the construction sites never duplicate keys). -/
def jLookup (o : List (String × JVal)) (k : String) : Option JVal :=
  match o with
  | [] => none
  | (k', v) :: rest => if k' == k then some v else jLookup rest k

/-- The stored record, `fileInfo` as built by the upload handler
(`src/api/index.js` lines 90–99). -/
structure FileRecord where
  id : String
  originalName : String
  filename : String
  mimetype : String
  size : Nat
  uploadDate : String
  buffer : List Nat
  url : String
deriving Repr, DecidableEq

/-- The process-wide `fileDatabase = new Map()` in insertion order. -/
abbrev Store := List (String × FileRecord)

/-- JS `Map.prototype.has` / the truthiness test of `Map.prototype.get`. -/
def mapHas (m : Store) (k : String) : Bool :=
  match m with
  | [] => false
  | (k', _) :: rest => k' == k || mapHas rest k

/-- JS `Map.prototype.get` (keys are unique at every `set` site). -/
def mapGet (m : Store) (k : String) : Option FileRecord :=
  match m with
  | [] => none
  | (k', v) :: rest => if k' == k then some v else mapGet rest k

/-- JS `Map.prototype.set`: update in place if the key is present, else
append at the end (insertion order is preserved). -/
def mapSet (m : Store) (k : String) (v : FileRecord) : Store :=
  match m with
  | [] => [(k, v)]
  | (k', v') :: rest =>
    if k' == k then (k, v) :: rest else (k', v') :: mapSet rest k v

/-- JS `Map.prototype.delete`: remove the entry with key `k`, if any. -/
def mapDelete (m : Store) (k : String) : Store :=
  match m with
  | [] => []
  | (k', v') :: rest =>
    if k' == k then rest else (k', v') :: mapDelete rest k

/-- JS `Array.from(map.values())`: the records in insertion order. -/
def mapValues (m : Store) : List FileRecord := m.map (·.2)

/-- An HTTP response body: JSON (`res.json`) or raw bytes (`res.send(buffer)`). -/
inductive RespBody where
  | json : JVal → RespBody
  | raw : List Nat → RespBody
deriving Repr

/-- An HTTP response: status code and body.  Headers other than the status
are not needed by any claim and are omitted. -/
structure Response where
  status : Nat
  body : RespBody
deriving Repr

/-- The fixed error envelope `{ error: <code>, message: <text> }`. -/
def errResp (status : Nat) (code msg : String) : Response :=
  ⟨status, .json (.jobj [("error", .jstr code), ("message", .jstr msg)])⟩

/-- JavaScript `a || b` on strings: the empty string is falsy. -/
def jsOr (s dflt : String) : String := if s == "" then dflt else s

/-- The file object multer's `memoryStorage` puts on `req.file`.
`memoryStorage` stores the whole part in `file.buffer` and sets
`file.size` to the buffer's byte length, so `size` is derived. -/
structure MulterFile where
  originalname : String
  mimetype : String
  buffer : List Nat
deriving Repr, DecidableEq

/-- `req.file.size`: multer `memoryStorage` sets it to `buffer.length`. -/
def MulterFile.size (f : MulterFile) : Nat := f.buffer.length

/-- `fileSize: 20 * 1024 * 1024` (`src/api/index.js` line 25). -/
def MAX_FILE_SIZE : Nat := 20 * 1024 * 1024

/-- Outcome of the `upload.single('file')` middleware: either `req.file`
(possibly absent) reaches the handler, or multer aborts with
`MulterError('LIMIT_FILE_SIZE')`, which the error middleware handles. -/
inductive MulterResult where
  | ok : Option MulterFile → MulterResult
  | limitFileSize : MulterResult
deriving Repr

/-- `upload.single('file')` with `limits.fileSize`: a file whose content
exceeds the limit triggers `LIMIT_FILE_SIZE`; otherwise the file (or no
file) is passed through. -/
def multerSingle (limit : Nat) (file? : Option MulterFile) : MulterResult :=
  match file? with
  | none => .ok none
  | some f => if f.size > limit then .limitFileSize else .ok (some f)

/-- Per-request data the upload handler reads from its environment:
the 16 random bytes drawn by `crypto.randomBytes(16)`, the current time
(`new Date().toISOString()`), and `getBaseUrl(req)`. -/
structure UploadEnv where
  rand : List Nat
  now : String
  baseUrl : String
deriving Repr

/-- Lowercase hex digit of a value below 16, as in Node's
`Buffer.toString('hex')`. -/
def hexDigit (n : Nat) : Char :=
  if n < 10 then Char.ofNat (48 + n) else Char.ofNat (87 + n)

/-- Hex encoding of a byte list: two lowercase digits per byte. -/
def bytesToHexChars : List Nat → List Char
  | [] => []
  | b :: bs => hexDigit (b / 16) :: hexDigit (b % 16) :: bytesToHexChars bs

/-- `crypto.randomBytes(16).toString('hex')` applied to the drawn bytes. -/
def generateFileId (randomBytes : List Nat) : String :=
  ⟨bytesToHexChars randomBytes⟩

/-- The `fileInfo` object of `src/api/index.js` (lines 90–99) as the JSON
object `res.json` would serialize, fields in construction order. -/
def fileInfoObj (r : FileRecord) : List (String × JVal) :=
  [("id", .jstr r.id),
   ("originalName", .jstr r.originalName),
   ("filename", .jstr r.filename),
   ("mimetype", .jstr r.mimetype),
   ("size", .jnum r.size),
   ("uploadDate", .jstr r.uploadDate),
   ("buffer", .jbytes r.buffer),
   ("url", .jstr r.url)]

/-- `const { buffer, ...fileInfoWithoutBuffer } = fileInfo`: rest
destructuring keeps every field but `buffer`, in order. -/
def omitBuffer (o : List (String × JVal)) : List (String × JVal) :=
  o.filter (fun p => p.1 ≠ "buffer")

/-- The record built by the upload handler from `req.file` and the
environment (`src/api/index.js` lines 87–99). -/
def mkRecord (env : UploadEnv) (f : MulterFile) : FileRecord :=
  let fileId := generateFileId env.rand
  { id := fileId
    originalName := jsOr f.originalname "unknown"
    filename := fileId
    mimetype := jsOr f.mimetype "application/octet-stream"
    size := f.size
    uploadDate := env.now
    buffer := f.buffer
    url := env.baseUrl ++ "/api/file/" ++ fileId }

/-- The 200 body of `POST /api/upload` (`src/api/index.js` lines 106–117). -/
def uploadSuccessBody (r : FileRecord) : JVal :=
  .jobj [("success", .jbool true),
         ("message", .jstr "File berhasil diupload"),
         ("data", .jobj [("id", .jstr r.id),
                         ("originalName", .jstr r.originalName),
                         ("mimetype", .jstr r.mimetype),
                         ("size", .jnum r.size),
                         ("url", .jstr r.url),
                         ("uploadDate", .jstr r.uploadDate)])]

/-- The `POST /api/upload` handler body (`src/api/index.js` lines 69–127),
run after multer accepted the request. Returns the new store and response. -/
def uploadHandler (db : Store) (env : UploadEnv) (file? : Option MulterFile) :
    Store × Response :=
  match file? with
  | none => (db, errResp 400 "NO_FILE" "Tidak ada file yang diupload")
  | some f =>
    if f.size > 20 * 1024 * 1024 then
      (db, errResp 400 "FILE_TOO_LARGE" "File terlalu besar. Maksimal 20MB")
    else
      let fileInfo := mkRecord env f
      (mapSet db fileInfo.id fileInfo, ⟨200, .json (uploadSuccessBody fileInfo)⟩)

/-- Full `POST /api/upload` pipeline: the multer middleware, then either the
error middleware (`src/api/index.js` lines 236–252, `LIMIT_FILE_SIZE` →
400 `FILE_TOO_LARGE`) or the handler. -/
def postUpload (db : Store) (env : UploadEnv) (file? : Option MulterFile) :
    Store × Response :=
  match multerSingle MAX_FILE_SIZE file? with
  | .limitFileSize => (db, errResp 400 "FILE_TOO_LARGE" "File terlalu besar")
  | .ok f? => uploadHandler db env f?

/-- `GET /api/file/:fileId` (`src/api/index.js` lines 130–159): raw buffer
or 404. -/
def getFile (db : Store) (fileId : String) : Response :=
  match mapGet db fileId with
  | none => errResp 404 "FILE_NOT_FOUND" "File tidak ditemukan"
  | some fileInfo => ⟨200, .raw fileInfo.buffer⟩

/-- `GET /api/info/:fileId` (`src/api/index.js` lines 162–187): record
summary without `buffer`, or 404. -/
def getInfo (db : Store) (fileId : String) : Response :=
  match mapGet db fileId with
  | none => errResp 404 "FILE_NOT_FOUND" "File tidak ditemukan"
  | some fileInfo =>
    ⟨200, .json (.jobj [("success", .jbool true),
                        ("data", .jobj (omitBuffer (fileInfoObj fileInfo)))])⟩

/-- `GET /api/files` (`src/api/index.js` lines 190–208): count and summaries
of every stored record, in `Map` iteration order. -/
def getFiles (db : Store) : Response :=
  let files := (mapValues db).map (fun file => JVal.jobj (omitBuffer (fileInfoObj file)))
  ⟨200, .json (.jobj [("success", .jbool true),
                      ("count", .jnum files.length),
                      ("data", .jarr files)])⟩

/-- `DELETE /api/file/:fileId` (`src/api/index.js` lines 211–233):
`fileDatabase.delete` returns whether an entry was removed. -/
def deleteFile (db : Store) (fileId : String) : Store × Response :=
  if mapHas db fileId then
    (mapDelete db fileId,
     ⟨200, .json (.jobj [("success", .jbool true),
                         ("message", .jstr "File berhasil dihapus")])⟩)
  else
    (db, errResp 404 "FILE_NOT_FOUND" "File tidak ditemukan")

/-- Extract `body.data.id` from a JSON response, as a client reading the
upload response would. -/
def respDataId (r : Response) : Option String :=
  match r.body with
  | .json (.jobj o) =>
    match jLookup o "data" with
    | some (.jobj d) =>
      match jLookup d "id" with
      | some (.jstr s) => some s
      | _ => none
    | _ => none
  | _ => none

/-- Extract the `error` code of a JSON response. -/
def respErrCode (r : Response) : Option String :=
  match r.body with
  | .json (.jobj o) =>
    match jLookup o "error" with
    | some (.jstr s) => some s
    | _ => none
  | _ => none

/-- Extract the `count` field of a JSON response. -/
def respCount (r : Response) : Option Nat :=
  match r.body with
  | .json (.jobj o) =>
    match jLookup o "count" with
    | some (.jnum n) => some n
    | _ => none
  | _ => none

/-- Does the response body contain a `buffer` field anywhere? -/
def respHasBufferKey (r : Response) : Bool :=
  match r.body with
  | .json v => jHasKey v "buffer"
  | .raw _ => false

/-! ## The `src/unnamed/part_000` variant

The second source file is another version of `api/index.js`: a 25 MB
multer limit, no per-file size check, no delete endpoint, and an upload
success response that sends the **whole** `fileInfo` record (including
`buffer`) back as `data` (`part_000` lines 58–62). -/

/-- `fileSize: 25 * 1024 * 1024` (`part_000` line 20). -/
def MAX_FILE_SIZE_V2 : Nat := 25 * 1024 * 1024

/-- The `fileInfo` record of `part_000` lines 44–54 (no `|| default`
fallbacks on name and mime type). -/
def mkRecordV2 (env : UploadEnv) (f : MulterFile) : FileRecord :=
  let fileId := generateFileId env.rand
  { id := fileId
    originalName := f.originalname
    filename := fileId
    mimetype := f.mimetype
    size := f.size
    uploadDate := env.now
    buffer := f.buffer
    url := env.baseUrl ++ "/api/file/" ++ fileId }

/-- The `POST /api/upload` handler of `part_000` (lines 38–66), after
multer accepted the request: the success response carries the full
`fileInfo`, `buffer` included. -/
def uploadHandlerV2 (db : Store) (env : UploadEnv) (file? : Option MulterFile) :
    Store × Response :=
  match file? with
  | none => (db, ⟨400, .json (.jobj [("error", .jstr "No file uploaded")])⟩)
  | some f =>
    let fileInfo := mkRecordV2 env f
    (mapSet db fileInfo.id fileInfo,
     ⟨200, .json (.jobj [("success", .jbool true),
                         ("message", .jstr "File uploaded successfully"),
                         ("data", .jobj (fileInfoObj fileInfo))])⟩)

/-- `GET /api/file/:fileId` of `part_000` (lines 69–89). -/
def getFileV2 (db : Store) (fileId : String) : Response :=
  match mapGet db fileId with
  | none => ⟨404, .json (.jobj [("error", .jstr "File not found")])⟩
  | some fileInfo => ⟨200, .raw fileInfo.buffer⟩

/-- `GET /api/info/:fileId` of `part_000` (lines 92–110). -/
def getInfoV2 (db : Store) (fileId : String) : Response :=
  match mapGet db fileId with
  | none => ⟨404, .json (.jobj [("error", .jstr "File not found")])⟩
  | some fileInfo =>
    ⟨200, .json (.jobj [("success", .jbool true),
                        ("data", .jobj (omitBuffer (fileInfoObj fileInfo)))])⟩

/-- `GET /api/files` of `part_000` (lines 113–127): no `count` field. -/
def getFilesV2 (db : Store) : Response :=
  ⟨200, .json (.jobj [("success", .jbool true),
                      ("data", .jarr ((mapValues db).map
                        (fun file => JVal.jobj (omitBuffer (fileInfoObj file)))))])⟩

/-! ## Operation traces

For the insertion-order claim the service is run as a state machine:
a trace of store-mutating requests (uploads and deletes) applied to the
cold-start empty store. -/

/-- A store-mutating request. -/
inductive Op where
  | upload : UploadEnv → Option MulterFile → Op
  | delete : String → Op

/-- The store after one request. -/
def stepOp (db : Store) : Op → Store
  | .upload env file? => (postUpload db env file?).1
  | .delete fileId => (deleteFile db fileId).1

/-- The store after a trace of requests. -/
def runOps (db : Store) : List Op → Store
  | [] => db
  | op :: rest => runOps (stepOp db op) rest

/-- Spec side: the record an operation inserts into the store, if any —
an upload with a file within the size limit. -/
def insertedRecord : Op → Option FileRecord
  | .upload env (some f) =>
    if f.size ≤ MAX_FILE_SIZE then some (mkRecord env f) else none
  | _ => none

/-- Is this operation a delete of the given id? -/
def isDeleteOf (fileId : String) : Op → Bool
  | .delete x => x == fileId
  | _ => false

/-- Does the rest of the trace delete this id? -/
def deletesLater (ops : List Op) (fileId : String) : Bool :=
  ops.any (isDeleteOf fileId)

/-- Spec side, from the claim's wording: the surviving records of a trace
in the order they were inserted — each inserted record, in trace order,
kept iff no later operation deletes its id. -/
def insertionOrderSurvivors : List Op → List FileRecord
  | [] => []
  | op :: rest =>
    match insertedRecord op with
    | some r =>
      if deletesLater rest r.id then insertionOrderSurvivors rest
      else r :: insertionOrderSurvivors rest
    | none => insertionOrderSurvivors rest

/-- The ids assigned by the inserting uploads of a trace.  The service
draws them from `crypto.randomBytes(16)`, so in any actual run they are
pairwise distinct with overwhelming probability; distinctness is the
hypothesis under which the ordering claim is stated. -/
def uploadedIds (ops : List Op) : List String :=
  ops.filterMap (fun op => (insertedRecord op).map (·.id))

/-- The record summaries in the `data` array of a `GET /api/files`
response body. -/
def summariesOf (records : List FileRecord) : List JVal :=
  records.map (fun file => JVal.jobj (omitBuffer (fileInfoObj file)))

/-! ## Concrete sample inputs (used by the witnesses) -/

/-- A sample draw of `crypto.randomBytes(16)` plus request environment. -/
def sampleEnv : UploadEnv :=
  ⟨[0, 1, 2, 3, 4, 5, 6, 7, 8, 9, 10, 11, 12, 13, 14, 15],
   "2024-01-01T00:00:00.000Z", "https://cdn.example"⟩

/-- A second, distinct randomness draw. -/
def sampleEnv2 : UploadEnv :=
  ⟨[255, 254, 253, 252, 251, 250, 249, 248, 247, 246, 245, 244, 243, 242, 241, 240],
   "2024-01-01T00:00:01.000Z", "https://cdn.example"⟩

/-- A small uploaded file. -/
def sampleFile : MulterFile := ⟨"a.txt", "text/plain", [104, 105, 33]⟩

/-- Another small uploaded file. -/
def sampleFile2 : MulterFile := ⟨"b.bin", "", [0, 255]⟩

/-- A file one byte over the 20 MB limit. -/
def bigFile : MulterFile :=
  ⟨"big.bin", "application/octet-stream", List.replicate (MAX_FILE_SIZE + 1) 0⟩

/-- A sample stored record. -/
def sampleRecord : FileRecord := mkRecord sampleEnv sampleFile

/-- A sample trace: two uploads, then a delete of the first id. -/
def sampleOps : List Op :=
  [Op.upload sampleEnv (some sampleFile),
   Op.upload sampleEnv2 (some sampleFile2),
   Op.delete (generateFileId sampleEnv.rand)]

/-! ## Auxiliary notions used by the statements -/

/-- Node's lowercase hex alphabet. -/
def hexAlphabet : String := "0123456789abcdef"

/-- The sixteen characters of the lowercase hex alphabet. -/
def hexCharList : List Char := hexAlphabet.data

/-- Value of a lowercase hex digit (inverse of `hexDigit` on `0..15`). -/
def unHexDigit (c : Char) : Nat :=
  if c.toNat ≥ 97 then c.toNat - 87 else c.toNat - 48

/-- Decode a hex character stream two digits at a time (inverse of
`bytesToHexChars` on byte lists). -/
def unhexChars : List Char → List Nat
  | h :: l :: rest => (16 * unHexDigit h + unHexDigit l) :: unhexChars rest
  | _ => []

/-- The size invariant of the store: every record's `size` field equals
the byte length of its stored payload. -/
def StoreInv (db : Store) : Prop :=
  ∀ p ∈ db, p.2.size = p.2.buffer.length

/-- The keys of the store, in insertion order. -/
def storeKeys (db : Store) : List String := db.map Prod.fst

/-- Spec side: the records of an initial store that survive a trace
(no operation of the trace deletes their id), in store order. -/
def survivorsFrom (s : Store) (ops : List Op) : List FileRecord :=
  (s.filter (fun p => !(deletesLater ops p.1))).map (·.2)

/-! ## Lemmas about the `Map` model -/

theorem mapGet_eq_none_iff_mapHas (m : Store) (k : String) :
    mapGet m k = none ↔ mapHas m k = false := by
  induction m with
  | nil => simp [mapGet, mapHas]
  | cons p rest ih =>
    obtain ⟨k', v⟩ := p
    cases h : k' == k <;> simp [mapGet, mapHas, h, ih]

theorem mapGet_mapSet_self (m : Store) (k : String) (v : FileRecord) :
    mapGet (mapSet m k v) k = some v := by
  induction m with
  | nil => simp [mapSet, mapGet]
  | cons p rest ih =>
    obtain ⟨k', v'⟩ := p
    cases h : k' == k <;> simp [mapSet, mapGet, h, ih]

theorem mapSet_of_not_has (m : Store) (k : String) (v : FileRecord)
    (h : mapHas m k = false) : mapSet m k v = m ++ [(k, v)] := by
  induction m with
  | nil => simp [mapSet]
  | cons p rest ih =>
    obtain ⟨k', v'⟩ := p
    simp only [mapHas, Bool.or_eq_false_iff] at h
    simp [mapSet, h.1, ih h.2]

theorem mapDelete_of_not_has (m : Store) (k : String)
    (h : mapHas m k = false) : mapDelete m k = m := by
  induction m with
  | nil => simp [mapDelete]
  | cons p rest ih =>
    obtain ⟨k', v'⟩ := p
    simp only [mapHas, Bool.or_eq_false_iff] at h
    simp [mapDelete, h.1, ih h.2]

theorem mapHas_append (m₁ m₂ : Store) (k : String) :
    mapHas (m₁ ++ m₂) k = (mapHas m₁ k || mapHas m₂ k) := by
  induction m₁ with
  | nil => simp [mapHas]
  | cons p rest ih =>
    obtain ⟨k', v'⟩ := p
    simp [mapHas, ih, Bool.or_assoc]

theorem mapHas_eq_false_of_not_mem (m : Store) (k : String)
    (h : k ∉ storeKeys m) : mapHas m k = false := by
  induction m with
  | nil => simp [mapHas]
  | cons p rest ih =>
    obtain ⟨k', v'⟩ := p
    simp only [storeKeys, List.map_cons, List.mem_cons] at h
    push_neg at h
    have hne : (k' == k) = false := by
      simp only [beq_eq_false_iff_ne, ne_eq]
      exact fun hk => h.1 hk.symm
    simp [mapHas, hne]
    exact ih (by simpa [storeKeys] using h.2)

theorem not_mem_of_mapHas_eq_false (m : Store) (k : String)
    (h : mapHas m k = false) : k ∉ storeKeys m := by
  induction m with
  | nil => simp [storeKeys]
  | cons p rest ih =>
    obtain ⟨k', v'⟩ := p
    simp only [mapHas, Bool.or_eq_false_iff, beq_eq_false_iff_ne, ne_eq] at h
    simp only [storeKeys, List.map_cons, List.mem_cons]
    push_neg
    exact ⟨fun hk => h.1 hk.symm, ih h.2⟩

theorem mapDelete_eq_filter (m : Store) (k : String)
    (hnd : (storeKeys m).Nodup) :
    mapDelete m k = m.filter (fun p => !(p.1 == k)) := by
  induction m with
  | nil => simp [mapDelete]
  | cons p rest ih =>
    obtain ⟨k', v'⟩ := p
    simp only [storeKeys, List.map_cons, List.nodup_cons] at hnd
    cases h : k' == k with
    | false => simp [mapDelete, h, ih hnd.2]
    | true =>
      have hk : k' = k := by simpa using h
      subst hk
      have : rest.filter (fun p => !(p.1 == k')) = rest := by
        apply List.filter_eq_self.mpr
        intro p hp
        simp only [Bool.not_eq_eq_eq_not, Bool.not_true, beq_eq_false_iff_ne, ne_eq]
        exact fun hpk => hnd.1 (hpk ▸ List.mem_map_of_mem Prod.fst hp)
      simp [mapDelete, h, this]

theorem mapHas_mapDelete_self (m : Store) (k : String)
    (hnd : (storeKeys m).Nodup) : mapHas (mapDelete m k) k = false := by
  rw [mapDelete_eq_filter m k hnd]
  induction m with
  | nil => simp [mapHas]
  | cons p rest ih =>
    obtain ⟨k', v'⟩ := p
    simp only [storeKeys, List.map_cons, List.nodup_cons] at hnd
    cases h : k' == k with
    | false => simpa [h, mapHas] using ih hnd.2
    | true => simpa [h, mapHas] using ih hnd.2

theorem mapHas_mapDelete_le (m : Store) (x k : String)
    (h : mapHas m k = false) : mapHas (mapDelete m x) k = false := by
  induction m with
  | nil => simp [mapDelete, mapHas]
  | cons p rest ih =>
    obtain ⟨k', v'⟩ := p
    simp only [mapHas, Bool.or_eq_false_iff] at h
    cases hx : k' == x with
    | true => simp [mapDelete, hx, h.2]
    | false => simp [mapDelete, hx, mapHas, h.1, ih h.2]

theorem mem_mapDelete (m : Store) (k : String) (p : String × FileRecord)
    (hp : p ∈ mapDelete m k) : p ∈ m := by
  induction m with
  | nil => simp [mapDelete] at hp
  | cons q rest ih =>
    obtain ⟨k', v'⟩ := q
    cases h : k' == k with
    | true =>
      simp only [mapDelete, h, if_true] at hp
      exact List.mem_cons_of_mem _ hp
    | false =>
      simp only [mapDelete, h, Bool.false_eq_true, if_false, List.mem_cons] at hp
      simp only [List.mem_cons]
      tauto

theorem mem_mapSet (m : Store) (k : String) (v : FileRecord)
    (p : String × FileRecord) (hp : p ∈ mapSet m k v) : p = (k, v) ∨ p ∈ m := by
  induction m with
  | nil => simpa [mapSet] using hp
  | cons q rest ih =>
    obtain ⟨k', v'⟩ := q
    cases h : k' == k with
    | true =>
      simp only [mapSet, h, if_true, List.mem_cons] at hp
      simp only [List.mem_cons]
      tauto
    | false =>
      simp only [mapSet, h, Bool.false_eq_true, if_false, List.mem_cons] at hp
      simp only [List.mem_cons]
      tauto

theorem storeKeys_mapDelete_nodup (m : Store) (k : String)
    (hnd : (storeKeys m).Nodup) : (storeKeys (mapDelete m k)).Nodup := by
  induction m with
  | nil => simp [mapDelete, storeKeys]
  | cons p rest ih =>
    obtain ⟨k', v'⟩ := p
    simp only [storeKeys, List.map_cons, List.nodup_cons] at hnd
    cases h : k' == k with
    | true => simpa [mapDelete, h, storeKeys] using hnd.2
    | false =>
      simp only [mapDelete, h, Bool.false_eq_true, if_false, storeKeys,
        List.map_cons, List.nodup_cons]
      refine ⟨fun hmem => ?_, ih hnd.2⟩
      obtain ⟨⟨a, b⟩, hab, hfst⟩ := List.mem_map.mp hmem
      exact hnd.1 (hfst ▸ List.mem_map_of_mem Prod.fst (mem_mapDelete _ _ _ hab))

/-! ## Lemmas about hex encoding -/

theorem hexDigit_mem (n : Nat) (h : n < 16) : hexDigit n ∈ hexCharList := by
  have hall : ∀ m ∈ List.range 16, hexDigit m ∈ hexCharList := by decide
  exact hall n (List.mem_range.mpr h)

theorem unHexDigit_hexDigit (n : Nat) (h : n < 16) : unHexDigit (hexDigit n) = n := by
  have hall : ∀ m ∈ List.range 16, unHexDigit (hexDigit m) = m := by decide
  exact hall n (List.mem_range.mpr h)

theorem bytesToHexChars_length (bs : List Nat) :
    (bytesToHexChars bs).length = 2 * bs.length := by
  induction bs with
  | nil => simp [bytesToHexChars]
  | cons b rest ih =>
    simp only [bytesToHexChars, List.length_cons, ih]
    omega

theorem unhexChars_bytesToHexChars (bs : List Nat) (h : ∀ b ∈ bs, b < 256) :
    unhexChars (bytesToHexChars bs) = bs := by
  induction bs with
  | nil => simp [bytesToHexChars, unhexChars]
  | cons b rest ih =>
    have hb : b < 256 := h b (List.mem_cons_self _ _)
    have h1 : b / 16 < 16 := by omega
    have h2 : b % 16 < 16 := Nat.mod_lt _ (by norm_num)
    simp only [bytesToHexChars, unhexChars]
    rw [unHexDigit_hexDigit _ h1, unHexDigit_hexDigit _ h2,
      ih (fun x hx => h x (List.mem_cons_of_mem _ hx))]
    congr 1
    omega

theorem generateFileId_injOn (rb rb' : List Nat)
    (h : ∀ b ∈ rb, b < 256) (h' : ∀ b ∈ rb', b < 256)
    (heq : generateFileId rb = generateFileId rb') : rb = rb' := by
  have hchars : bytesToHexChars rb = bytesToHexChars rb' :=
    congrArg String.data heq
  calc rb = unhexChars (bytesToHexChars rb) :=
        (unhexChars_bytesToHexChars rb h).symm
    _ = unhexChars (bytesToHexChars rb') := by rw [hchars]
    _ = rb' := unhexChars_bytesToHexChars rb' h'

theorem bytesToHexChars_mem_hex (bs : List Nat) (h : ∀ b ∈ bs, b < 256) :
    ∀ c ∈ bytesToHexChars bs, c ∈ hexCharList := by
  induction bs with
  | nil => simp [bytesToHexChars]
  | cons b rest ih =>
    have hb : b < 256 := h b (List.mem_cons_self _ _)
    intro c hc
    simp only [bytesToHexChars, List.mem_cons] at hc
    rcases hc with rfl | hc
    · exact hexDigit_mem _ (by omega)
    rcases hc with rfl | hc
    · exact hexDigit_mem _ (Nat.mod_lt _ (by norm_num))
    · exact ih (fun x hx => h x (List.mem_cons_of_mem _ hx)) c hc

/-! ## Lemmas about the handlers -/

theorem postUpload_success (db : Store) (env : UploadEnv) (f : MulterFile)
    (h : f.size ≤ MAX_FILE_SIZE) :
    postUpload db env (some f) =
      (mapSet db (mkRecord env f).id (mkRecord env f),
       ⟨200, .json (uploadSuccessBody (mkRecord env f))⟩) := by
  have hng : ¬ (f.size > MAX_FILE_SIZE) := not_lt.mpr h
  simp only [postUpload, multerSingle, if_neg hng, uploadHandler]
  rw [if_neg (show ¬ (f.size > 20 * 1024 * 1024) from hng)]

theorem respDataId_uploadSuccess (r : FileRecord) :
    respDataId ⟨200, .json (uploadSuccessBody r)⟩ = some r.id := rfl

theorem summary_no_buffer (r : FileRecord) :
    jObjHasKey (omitBuffer (fileInfoObj r)) "buffer" = false := rfl

theorem summaries_no_buffer (l : List FileRecord) :
    jArrHasKey (summariesOf l) "buffer" = false := by
  induction l with
  | nil => rfl
  | cons r rest ih =>
    have hcons : jArrHasKey (summariesOf (r :: rest)) "buffer" =
        (jObjHasKey (omitBuffer (fileInfoObj r)) "buffer" ||
          jArrHasKey (summariesOf rest) "buffer") := rfl
    rw [hcons, summary_no_buffer, ih]
    rfl

theorem postUpload_fst (db : Store) (env : UploadEnv) (file? : Option MulterFile) :
    (postUpload db env file?).1 =
      match insertedRecord (Op.upload env file?) with
      | some r => mapSet db r.id r
      | none => db := by
  cases file? with
  | none => rfl
  | some f =>
    by_cases h : f.size > MAX_FILE_SIZE
    · have hne : ¬ (f.size ≤ MAX_FILE_SIZE) := not_le.mpr h
      simp only [postUpload, multerSingle, if_pos h, insertedRecord, if_neg hne]
    · have hle : f.size ≤ MAX_FILE_SIZE := not_lt.mp h
      rw [postUpload_success db env f hle]
      simp only [insertedRecord, if_pos hle]

theorem deleteFile_fst (db : Store) (fileId : String) :
    (deleteFile db fileId).1 = mapDelete db fileId := by
  cases hb : mapHas db fileId with
  | true => simp [deleteFile, hb]
  | false => simp [deleteFile, hb, mapDelete_of_not_has db fileId hb]

/-! ## Lemmas about traces and insertion order -/

theorem uploadedIds_upload_cons (env : UploadEnv) (file? : Option MulterFile)
    (rest : List Op) :
    uploadedIds (Op.upload env file? :: rest) =
      match insertedRecord (Op.upload env file?) with
      | some r => r.id :: uploadedIds rest
      | none => uploadedIds rest := by
  cases hi : insertedRecord (Op.upload env file?) <;>
    simp [uploadedIds, List.filterMap_cons, hi]

theorem uploadedIds_delete_cons (x : String) (rest : List Op) :
    uploadedIds (Op.delete x :: rest) = uploadedIds rest := by
  simp [uploadedIds, List.filterMap_cons, insertedRecord]

theorem survivorsFrom_nil (ops : List Op) : survivorsFrom [] ops = [] := rfl

theorem survivorsFrom_of_nil_ops (s : Store) : survivorsFrom s [] = mapValues s := by
  simp [survivorsFrom, deletesLater, mapValues]

theorem survivorsFrom_upload_cons (s : Store) (env : UploadEnv)
    (file? : Option MulterFile) (rest : List Op) :
    survivorsFrom s (Op.upload env file? :: rest) = survivorsFrom s rest := by
  simp [survivorsFrom, deletesLater, List.any_cons, isDeleteOf]

theorem survivorsFrom_append (s₁ s₂ : Store) (ops : List Op) :
    survivorsFrom (s₁ ++ s₂) ops = survivorsFrom s₁ ops ++ survivorsFrom s₂ ops := by
  simp [survivorsFrom, List.filter_append]

theorem survivorsFrom_singleton (k : String) (r : FileRecord) (ops : List Op) :
    survivorsFrom [(k, r)] ops = if deletesLater ops k then [] else [r] := by
  cases h : deletesLater ops k <;> simp [survivorsFrom, List.filter, h]

theorem survivorsFrom_delete_cons (s : Store) (x : String) (rest : List Op)
    (hnd : (storeKeys s).Nodup) :
    survivorsFrom (mapDelete s x) rest = survivorsFrom s (Op.delete x :: rest) := by
  rw [mapDelete_eq_filter s x hnd]
  simp only [survivorsFrom, List.filter_filter]
  congr 1
  apply List.filter_congr
  intro p _
  by_cases hpx : p.1 = x
  · simp [deletesLater, List.any_cons, isDeleteOf, hpx]
  · have h1 : (p.1 == x) = false := beq_eq_false_iff_ne.mpr hpx
    have h2 : (x == p.1) = false := beq_eq_false_iff_ne.mpr (Ne.symm hpx)
    simp [deletesLater, List.any_cons, isDeleteOf, h1, h2]

theorem runOps_mapValues (ops : List Op) : ∀ s : Store,
    (storeKeys s).Nodup → (uploadedIds ops).Nodup →
    (∀ x ∈ uploadedIds ops, mapHas s x = false) →
    mapValues (runOps s ops) = survivorsFrom s ops ++ insertionOrderSurvivors ops := by
  induction ops with
  | nil =>
    intro s _ _ _
    simp [runOps, insertionOrderSurvivors, survivorsFrom_of_nil_ops]
  | cons op rest ih =>
    intro s hnd hids hfresh
    cases op with
    | upload env file? =>
      rw [runOps]
      cases hi : insertedRecord (Op.upload env file?) with
      | none =>
        have hstep : stepOp s (Op.upload env file?) = s := by
          simp [stepOp, postUpload_fst, hi]
        rw [hstep]
        rw [uploadedIds_upload_cons, hi] at hids hfresh
        rw [ih s hnd hids hfresh, survivorsFrom_upload_cons]
        simp [insertionOrderSurvivors, hi]
      | some r =>
        rw [uploadedIds_upload_cons, hi] at hids hfresh
        have hfr : mapHas s r.id = false :=
          hfresh r.id (List.mem_cons_self _ _)
        have hstep : stepOp s (Op.upload env file?) = s ++ [(r.id, r)] := by
          simp [stepOp, postUpload_fst, hi, mapSet_of_not_has s r.id r hfr]
        rw [hstep]
        simp only [List.nodup_cons] at hids
        have hnd' : (storeKeys (s ++ [(r.id, r)])).Nodup := by
          simp only [storeKeys, List.map_append, List.map_cons, List.map_nil,
            List.nodup_append]
          refine ⟨hnd, List.nodup_singleton _, ?_⟩
          intro a ha hb
          simp only [List.mem_singleton] at hb
          exact not_mem_of_mapHas_eq_false s r.id hfr (hb ▸ ha)
        have hfresh' : ∀ x ∈ uploadedIds rest, mapHas (s ++ [(r.id, r)]) x = false := by
          intro x hx
          rw [mapHas_append]
          have h1 : mapHas s x = false := hfresh x (List.mem_cons_of_mem _ hx)
          have h2 : (r.id == x) = false :=
            beq_eq_false_iff_ne.mpr (fun hrx => hids.1 (hrx ▸ hx))
          simp [mapHas, h1, h2]
        rw [ih _ hnd' hids.2 hfresh', survivorsFrom_append, survivorsFrom_singleton,
          survivorsFrom_upload_cons]
        simp only [insertionOrderSurvivors, hi]
        cases hdel : deletesLater rest r.id <;> simp [hdel]
    | delete x =>
      rw [runOps]
      have hstep : stepOp s (Op.delete x) = mapDelete s x := by
        simp [stepOp, deleteFile_fst]
      rw [hstep]
      rw [uploadedIds_delete_cons] at hids hfresh
      rw [ih _ (storeKeys_mapDelete_nodup s x hnd) hids
        (fun y hy => mapHas_mapDelete_le s x y (hfresh y hy)),
        survivorsFrom_delete_cons s x rest hnd]
      simp [insertionOrderSurvivors, insertedRecord]

/-! ## The claims -/

/-- C1: uploading a payload of N bytes and fetching it at the id carried in
the upload response returns exactly the same N bytes, byte-for-byte. -/
theorem upload_then_fetch_roundtrip (db : Store) (env : UploadEnv) (f : MulterFile)
    (h : f.size ≤ MAX_FILE_SIZE) (fileId : String)
    (hid : respDataId (postUpload db env (some f)).2 = some fileId) :
    getFile (postUpload db env (some f)).1 fileId = ⟨200, RespBody.raw f.buffer⟩ := by
  rw [postUpload_success db env f h] at hid ⊢
  rw [respDataId_uploadSuccess] at hid
  obtain rfl := Option.some.inj hid
  simp only [getFile, mapGet_mapSet_self]
  rfl

/-- Witness for C1 at a concrete 3-byte upload. -/
theorem upload_then_fetch_roundtrip_witness :
    sampleFile.size ≤ MAX_FILE_SIZE ∧
    respDataId (postUpload [] sampleEnv (some sampleFile)).2 =
      some (generateFileId sampleEnv.rand) ∧
    getFile (postUpload [] sampleEnv (some sampleFile)).1
      (generateFileId sampleEnv.rand) = ⟨200, RespBody.raw sampleFile.buffer⟩ :=
  ⟨by decide, by rfl,
   upload_then_fetch_roundtrip [] sampleEnv sampleFile (by decide)
     (generateFileId sampleEnv.rand) (by rfl)⟩

/-- C2: for every store state, neither `GET /api/info/:id` nor
`GET /api/files` ever carries a `buffer` field anywhere in its JSON body,
in either source variant. -/
theorem info_and_files_never_contain_payload (db : Store) (fileId : String) :
    respHasBufferKey (getInfo db fileId) = false ∧
    respHasBufferKey (getFiles db) = false ∧
    respHasBufferKey (getInfoV2 db fileId) = false ∧
    respHasBufferKey (getFilesV2 db) = false := by
  refine ⟨?_, ?_, ?_, ?_⟩
  · cases hg : mapGet db fileId with
    | none => simp only [respHasBufferKey, getInfo, hg]; rfl
    | some fi => simp only [respHasBufferKey, getInfo, hg]; rfl
  · have h1 : respHasBufferKey (getFiles db) =
        (jArrHasKey (summariesOf (mapValues db)) "buffer" || false) := rfl
    rw [h1, summaries_no_buffer]
    rfl
  · cases hg : mapGet db fileId with
    | none => simp only [respHasBufferKey, getInfoV2, hg]; rfl
    | some fi => simp only [respHasBufferKey, getInfoV2, hg]; rfl
  · have h1 : respHasBufferKey (getFilesV2 db) =
        (jArrHasKey (summariesOf (mapValues db)) "buffer" || false) := rfl
    rw [h1, summaries_no_buffer]
    rfl

/-- C3 (counterexample): in the `part_000` variant a successful upload's
200 response does contain the raw `buffer` field — the handler sends the
whole `fileInfo` record as `data`. -/
theorem variant_upload_response_contains_payload :
    (uploadHandlerV2 [] sampleEnv (some sampleFile)).2.status = 200 ∧
    respHasBufferKey (uploadHandlerV2 [] sampleEnv (some sampleFile)).2 = true :=
  ⟨rfl, rfl⟩

/-- C3 (amended): in the `api/index.js` variant, the body of every
`POST /api/upload` response — the 200 record summary as well as the error
envelopes — never contains the raw `buffer` field; the `part_000` variant
returns the full record, `buffer` included. -/
theorem upload_response_no_payload_primary (db : Store) (env : UploadEnv)
    (file? : Option MulterFile) :
    respHasBufferKey (postUpload db env file?).2 = false := by
  cases file? with
  | none => rfl
  | some f =>
    by_cases h : f.size > MAX_FILE_SIZE
    · simp only [postUpload, multerSingle, if_pos h]
      rfl
    · rw [postUpload_success db env f (not_lt.mp h)]
      rfl

/-- C4: a payload over the configured 20 MB maximum is rejected with a 400
response whose code is `FILE_TOO_LARGE` — identically whether the multer
body-size limit or the handler's per-file check detects it — and the store
is left unchanged. -/
theorem oversized_upload_rejected (db : Store) (env : UploadEnv) (f : MulterFile)
    (h : f.size > MAX_FILE_SIZE) :
    postUpload db env (some f) =
      (db, errResp 400 "FILE_TOO_LARGE" "File terlalu besar") ∧
    uploadHandler db env (some f) =
      (db, errResp 400 "FILE_TOO_LARGE" "File terlalu besar. Maksimal 20MB") ∧
    respErrCode (postUpload db env (some f)).2 = some "FILE_TOO_LARGE" ∧
    respErrCode (uploadHandler db env (some f)).2 = some "FILE_TOO_LARGE" := by
  have h20 : f.size > 20 * 1024 * 1024 := h
  have p1 : postUpload db env (some f) =
      (db, errResp 400 "FILE_TOO_LARGE" "File terlalu besar") := by
    simp only [postUpload, multerSingle, if_pos h]
  have p2 : uploadHandler db env (some f) =
      (db, errResp 400 "FILE_TOO_LARGE" "File terlalu besar. Maksimal 20MB") := by
    simp only [uploadHandler, if_pos h20]
  refine ⟨p1, p2, ?_, ?_⟩
  · rw [p1]; rfl
  · rw [p2]; rfl

/-- Witness for C4 at a payload one byte over the limit. -/
theorem oversized_upload_rejected_witness :
    bigFile.size > MAX_FILE_SIZE ∧
    postUpload [] sampleEnv (some bigFile) =
      ([], errResp 400 "FILE_TOO_LARGE" "File terlalu besar") ∧
    uploadHandler [] sampleEnv (some bigFile) =
      ([], errResp 400 "FILE_TOO_LARGE" "File terlalu besar. Maksimal 20MB") ∧
    respErrCode (postUpload [] sampleEnv (some bigFile)).2 = some "FILE_TOO_LARGE" ∧
    respErrCode (uploadHandler [] sampleEnv (some bigFile)).2 = some "FILE_TOO_LARGE" := by
  have hbig : bigFile.size > MAX_FILE_SIZE := by
    show (List.replicate (MAX_FILE_SIZE + 1) 0).length > MAX_FILE_SIZE
    rw [List.length_replicate]
    exact Nat.lt_succ_self _
  have happ := oversized_upload_rejected [] sampleEnv bigFile hbig
  exact ⟨hbig, happ.1, happ.2.1, happ.2.2.1, happ.2.2.2⟩

/-- C5: for an id absent from the store, `GET /api/file/:id`,
`GET /api/info/:id` and `DELETE /api/file/:id` each answer with the 404
`FILE_NOT_FOUND` envelope (the delete leaving the store untouched), never a
5xx; the `part_000` variant's file and info handlers likewise answer 404. -/
theorem absent_id_returns_not_found (db : Store) (fileId : String)
    (h : mapGet db fileId = none) :
    getFile db fileId = errResp 404 "FILE_NOT_FOUND" "File tidak ditemukan" ∧
    getInfo db fileId = errResp 404 "FILE_NOT_FOUND" "File tidak ditemukan" ∧
    deleteFile db fileId =
      (db, errResp 404 "FILE_NOT_FOUND" "File tidak ditemukan") ∧
    getFileV2 db fileId = ⟨404, .json (.jobj [("error", .jstr "File not found")])⟩ ∧
    getInfoV2 db fileId = ⟨404, .json (.jobj [("error", .jstr "File not found")])⟩ := by
  have hh : mapHas db fileId = false := (mapGet_eq_none_iff_mapHas db fileId).mp h
  refine ⟨?_, ?_, ?_, ?_, ?_⟩
  · simp only [getFile, h]
  · simp only [getInfo, h]
  · simp [deleteFile, hh]
  · simp only [getFileV2, h]
  · simp only [getInfoV2, h]

/-- Witness for C5 at the empty store. -/
theorem absent_id_returns_not_found_witness :
    mapGet [] "deadbeef" = none ∧
    (getFile [] "deadbeef" = errResp 404 "FILE_NOT_FOUND" "File tidak ditemukan" ∧
     getInfo [] "deadbeef" = errResp 404 "FILE_NOT_FOUND" "File tidak ditemukan" ∧
     deleteFile [] "deadbeef" =
       ([], errResp 404 "FILE_NOT_FOUND" "File tidak ditemukan") ∧
     getFileV2 [] "deadbeef" = ⟨404, .json (.jobj [("error", .jstr "File not found")])⟩ ∧
     getInfoV2 [] "deadbeef" = ⟨404, .json (.jobj [("error", .jstr "File not found")])⟩) :=
  ⟨rfl, absent_id_returns_not_found [] "deadbeef" rfl⟩

/-- C6: deleting a present id twice gives a success response first (the
record is removed) and the 404 `FILE_NOT_FOUND` envelope second.  The
`Nodup` hypothesis is the key-uniqueness every JS `Map` guarantees by
construction. -/
theorem delete_twice_first_succeeds_then_not_found (db : Store) (fileId : String)
    (hnd : (storeKeys db).Nodup) (h : mapHas db fileId = true) :
    (deleteFile db fileId).2 =
      ⟨200, .json (.jobj [("success", .jbool true),
                          ("message", .jstr "File berhasil dihapus")])⟩ ∧
    deleteFile (deleteFile db fileId).1 fileId =
      ((deleteFile db fileId).1,
       errResp 404 "FILE_NOT_FOUND" "File tidak ditemukan") := by
  have hdel : mapHas (mapDelete db fileId) fileId = false :=
    mapHas_mapDelete_self db fileId hnd
  constructor
  · simp [deleteFile, h]
  · rw [deleteFile_fst]
    simp [deleteFile, hdel]

/-- Witness for C6 at a one-record store. -/
theorem delete_twice_witness :
    (storeKeys [(sampleRecord.id, sampleRecord)]).Nodup ∧
    mapHas [(sampleRecord.id, sampleRecord)] sampleRecord.id = true ∧
    ((deleteFile [(sampleRecord.id, sampleRecord)] sampleRecord.id).2 =
      ⟨200, .json (.jobj [("success", .jbool true),
                          ("message", .jstr "File berhasil dihapus")])⟩ ∧
     deleteFile (deleteFile [(sampleRecord.id, sampleRecord)] sampleRecord.id).1
       sampleRecord.id =
       ((deleteFile [(sampleRecord.id, sampleRecord)] sampleRecord.id).1,
        errResp 404 "FILE_NOT_FOUND" "File tidak ditemukan")) :=
  ⟨by simp [storeKeys], by rfl,
   delete_twice_first_succeeds_then_not_found
     [(sampleRecord.id, sampleRecord)] sampleRecord.id (by simp [storeKeys]) (by rfl)⟩

/-- C7: an upload request with no file field is answered with the 400
`NO_FILE` envelope, the store is unchanged, and a subsequent
`GET /api/files` reports the same `count` as before. -/
theorem upload_without_file_rejected (db : Store) (env : UploadEnv) :
    postUpload db env none =
      (db, errResp 400 "NO_FILE" "Tidak ada file yang diupload") ∧
    respCount (getFiles (postUpload db env none).1) = respCount (getFiles db) := by
  exact ⟨rfl, rfl⟩

/-- C8: the invariant "every stored record's `size` equals its payload's
byte length" holds of the cold-start store and is preserved by every
store-mutating operation (uploads in all branches, deletes). -/
theorem store_size_invariant :
    StoreInv ([] : Store) ∧
    (∀ (db : Store) (env : UploadEnv) (file? : Option MulterFile),
      StoreInv db → StoreInv (postUpload db env file?).1) ∧
    (∀ (db : Store) (fileId : String),
      StoreInv db → StoreInv (deleteFile db fileId).1) := by
  refine ⟨?_, ?_, ?_⟩
  · intro p hp
    exact absurd hp (List.not_mem_nil p)
  · intro db env file? hinv p hp
    cases file? with
    | none => exact hinv p hp
    | some f =>
      by_cases h : f.size > MAX_FILE_SIZE
      · simp only [postUpload, multerSingle, if_pos h] at hp
        exact hinv p hp
      · rw [postUpload_success db env f (not_lt.mp h)] at hp
        rcases mem_mapSet _ _ _ _ hp with h1 | h1
        · subst h1
          rfl
        · exact hinv p h1
  · intro db fileId hinv p hp
    rw [deleteFile_fst] at hp
    exact hinv p (mem_mapDelete _ _ _ hp)

/-- Witness for C8: the invariant after a concrete upload into the empty
store. -/
theorem store_size_invariant_witness :
    StoreInv ([] : Store) ∧
    StoreInv ((postUpload [] sampleEnv (some sampleFile)).1) :=
  ⟨by simp [StoreInv],
   store_size_invariant.2.1 [] sampleEnv (some sampleFile) (by simp [StoreInv])⟩

/-- C9: the id of an upload is the 32-character lowercase-hex encoding of
the 16 server-drawn random bytes; it is a function of that randomness only
(the same for every store state and every client-supplied file), and
distinct randomness yields distinct ids. -/
theorem upload_id_is_random_hex (rb : List Nat) (hlen : rb.length = 16)
    (hbytes : ∀ b ∈ rb, b < 256) :
    (generateFileId rb).length = 32 ∧
    (∀ c ∈ (generateFileId rb).data, c ∈ hexCharList) ∧
    (∀ (db : Store) (now baseUrl : String) (f : MulterFile),
      f.size ≤ MAX_FILE_SIZE →
      respDataId (postUpload db ⟨rb, now, baseUrl⟩ (some f)).2 =
        some (generateFileId rb)) ∧
    (∀ rb' : List Nat, (∀ b ∈ rb', b < 256) → rb ≠ rb' →
      generateFileId rb ≠ generateFileId rb') := by
  refine ⟨?_, ?_, ?_, ?_⟩
  · show (bytesToHexChars rb).length = 32
    rw [bytesToHexChars_length, hlen]
  · exact bytesToHexChars_mem_hex rb hbytes
  · intro db now baseUrl f hf
    rw [postUpload_success _ _ _ hf, respDataId_uploadSuccess]
    rfl
  · intro rb' hb' hne heq
    exact hne (generateFileId_injOn rb rb' hbytes hb' heq)

/-- Witness for C9 at two concrete randomness draws. -/
theorem upload_id_is_random_hex_witness :
    sampleEnv.rand.length = 16 ∧
    (∀ b ∈ sampleEnv.rand, b < 256) ∧
    (generateFileId sampleEnv.rand).length = 32 ∧
    (∀ c ∈ (generateFileId sampleEnv.rand).data, c ∈ hexCharList) ∧
    generateFileId sampleEnv.rand ≠ generateFileId sampleEnv2.rand :=
  ⟨by decide, by decide,
   (upload_id_is_random_hex sampleEnv.rand (by decide) (by decide)).1,
   (upload_id_is_random_hex sampleEnv.rand (by decide) (by decide)).2.1,
   (upload_id_is_random_hex sampleEnv.rand (by decide) (by decide)).2.2.2
     sampleEnv2.rand (by decide) (by decide)⟩

/-- C10: `GET /api/files` answers with exactly the summaries of the stored
records in `Map` iteration order, and for every trace of uploads and
deletes from a cold start (with the pairwise-distinct ids the random
generator provides) that order is the insertion order of the surviving
records. -/
theorem files_lists_survivors_in_insertion_order :
    (∀ db : Store, getFiles db =
      ⟨200, .json (.jobj [("success", .jbool true),
                          ("count", .jnum (summariesOf (mapValues db)).length),
                          ("data", .jarr (summariesOf (mapValues db)))])⟩) ∧
    (∀ db : Store, respCount (getFiles db) = some (mapValues db).length) ∧
    (∀ ops : List Op, (uploadedIds ops).Nodup →
      mapValues (runOps [] ops) = insertionOrderSurvivors ops) := by
  refine ⟨fun db => rfl, ?_, ?_⟩
  · intro db
    have h1 : respCount (getFiles db) = some (summariesOf (mapValues db)).length := rfl
    rw [h1]
    simp [summariesOf]
  · intro ops h
    have hmain := runOps_mapValues ops [] (by simp [storeKeys]) h
      (fun x _ => rfl)
    rw [hmain, survivorsFrom_nil, List.nil_append]

/-- Witness for C10 at a concrete trace: two uploads then a delete of the
first id. -/
theorem files_lists_survivors_witness :
    (uploadedIds sampleOps).Nodup ∧
    mapValues (runOps [] sampleOps) = insertionOrderSurvivors sampleOps :=
  ⟨by decide,
   files_lists_survivors_in_insertion_order.2.2 sampleOps (by decide)⟩

end CDN
